import Mathlib

/-!
Verification of the driver-resolution core of `apps/commonutils.cpp`
(`DoesDriverHandleExtension`, `GetOutputDriversFor`,
`GetOutputDriverForRaster`) against its natural-language specification.

The C++ functions are shallowly embedded: the driver registry (a global in
the original program) becomes an explicit `List Driver` argument, the
`CPLError` / `CPLDebug` side channels become an explicit list of emitted
diagnostics, and the helper string routines of the support library
(`EQUAL`, `STARTS_WITH_CI`, `CPLString::endsWith`, `CPLGetExtension`) are
given as executable Lean functions.
-/

namespace GDALCommonUtils

/-- Lowercased character content of a string (ASCII folding via
`Char.toLower`), the common currency of the case-insensitive comparisons
in the support library. -/
def lowerChars (s : String) : List Char :=
  s.data.map Char.toLower

/-- The support library's `EQUAL(a, b)` macro: case-insensitive string
equality. -/
def EQUAL (a b : String) : Bool :=
  lowerChars a == lowerChars b

/-- The support library's `STARTS_WITH_CI(s, p)` macro: `p` is a
case-insensitive literal prefix of `s`. -/
def STARTS_WITH_CI (s p : String) : Bool :=
  (lowerChars p).isPrefixOf (lowerChars s)

/-- `CPLString::endsWith(suffix)`: case-sensitive suffix test, as for
`std::string`. -/
def strEndsWith (s t : String) : Bool :=
  t.data.isSuffixOf s.data

/-- Characters strictly after the last dot of a character list, or `none`
when the list has no dot. -/
def lastDotSegment : List Char → Option (List Char)
  | [] => none
  | c :: rest =>
    match lastDotSegment rest with
    | some e => some e
    | none => if c = '.' then some rest else none

/-- Modelled from the spec: `CPLGetExtension` belongs to the support
library (`port/cpl_path.cpp`), which is not part of this snapshot.  The
spec describes it as extracting "the conventional last dot segment of the
filename as the raw extension, lowercased", empty when the filename has no
extractable extension. -/
def CPLGetExtension (s : String) : String :=
  match lastDotSegment s.data with
  | none => ""
  | some e => String.mk (e.map Char.toLower)

/-- A registered driver, as observed by the resolution code: short name,
the capability metadata items it declares, its declared extensions
(`GDAL_DMD_EXTENSIONS`, tokenized), and its optional connection prefix
(`GDAL_DMD_CONNECTION_PREFIX`). -/
structure Driver where
  shortName : String
  canCreate : Bool
  canCreateCopy : Bool
  isRaster : Bool
  isVector : Bool
  supportsVectorTranslateFrom : Bool
  extensions : List String
  connectionPrefixStr : Option String
  deriving Repr, DecidableEq

/-- The `nFlagRasterVector` bitmask (`GDAL_OF_RASTER` / `GDAL_OF_VECTOR`),
represented as the spec's pair of request booleans. -/
structure OpenFlags where
  raster : Bool
  vector : Bool
  deriving Repr, DecidableEq

/-- The raster-only request passed by `GetOutputDriverForRaster`
(`GDAL_OF_RASTER`). -/
def rasterFlags : OpenFlags := ⟨true, false⟩

/-- `DoesDriverHandleExtension`: the driver declares some extension token
case-insensitively equal to `ext` (lines 44-63 of the source). -/
def DoesDriverHandleExtension (d : Driver) (ext : String) : Bool :=
  d.extensions.any fun t => EQUAL ext t

/-- The extension-normalization step of `GetOutputDriversFor` (lines
74-86): the raw extension, with `zip` re-aliased to `shp.zip` /
`gpkg.zip` when the filename ends with one of the two exact spellings
checked by the source. -/
def extensionToken (dest : String) : String :=
  let osExt := CPLGetExtension dest
  if EQUAL osExt "zip" && (strEndsWith dest ".shp.zip" || strEndsWith dest ".SHP.ZIP") then
    "shp.zip"
  else if EQUAL osExt "zip" && (strEndsWith dest ".gpkg.zip" || strEndsWith dest ".GPKG.ZIP") then
    "gpkg.zip"
  else osExt

/-- The capability test computing `bOk` in the per-driver loop (lines
92-110). -/
def driverCapabilityOk (f : OpenFlags) (d : Driver) : Bool :=
  ((d.canCreate || d.canCreateCopy) &&
    ((f.raster && d.isRaster) || (f.vector && d.isVector)))
  || (d.supportsVectorTranslateFrom && f.vector)

/-- The extension/prefix test guarding the `push_back` (lines 111-126):
a non-empty token handled by the driver, or otherwise a declared
connection prefix that is a case-insensitive prefix of the destination. -/
def driverMatches (dest tok : String) (d : Driver) : Bool :=
  if !(tok == "") && DoesDriverHandleExtension d tok then
    true
  else
    match d.connectionPrefixStr with
    | some p => STARTS_WITH_CI dest p
    | none => false

/-- The loop of `GetOutputDriversFor` (lines 87-127): short names of the
registry drivers passing both the capability and the extension/prefix
test, in registry order. -/
def rawDriverList (reg : List Driver) (dest : String) (f : OpenFlags) : List String :=
  (reg.filter fun d => driverCapabilityOk f d && driverMatches dest (extensionToken dest) d).map
    Driver.shortName

/-- The GMT/netCDF precedence override (lines 129-137): a two-element
result that is case-insensitively `["GMT", "NETCDF"]` under a token
case-insensitively equal to `"nc"` is replaced by the hard-coded
`["NETCDF", "GMT"]`. -/
def applyNcOverride (tok : String) (l : List String) : List String :=
  match l with
  | [a, b] =>
    if EQUAL tok "nc" && EQUAL a "GMT" && EQUAL b "NETCDF" then ["NETCDF", "GMT"] else l
  | _ => l

/-- `GetOutputDriversFor` (lines 69-140): the filtered registry, with the
nc override applied. -/
def GetOutputDriversFor (reg : List Driver) (dest : String) (f : OpenFlags) : List String :=
  applyNcOverride (extensionToken dest) (rawDriverList reg dest f)

/-- A diagnostic emitted through `CPLError` / `CPLDebug`. -/
inductive Diag where
  | errorDiag (msg : String) : Diag
  | warningDiag (msg : String) : Diag
  | debugDiag (category msg : String) : Diag
  deriving Repr, DecidableEq

/-- Recognizer for `CPLError(CE_Failure, ...)` diagnostics. -/
def isErrorDiag : Diag → Bool
  | .errorDiag _ => true
  | _ => false

/-- Recognizer for `CPLError(CE_Warning, ...)` diagnostics. -/
def isWarningDiag : Diag → Bool
  | .warningDiag _ => true
  | _ => false

/-- Recognizer for `CPLDebug` diagnostics. -/
def isDebugDiag : Diag → Bool
  | .debugDiag _ _ => true
  | _ => false

/-- Whether a diagnostic stream contains a failure-level error. -/
def hasErrorDiag (l : List Diag) : Bool :=
  l.any isErrorDiag

/-- The warnings of a diagnostic stream, in emission order. -/
def warningsOf (l : List Diag) : List Diag :=
  l.filter isWarningDiag

/-- The debug messages of a diagnostic stream, in emission order. -/
def debugsOf (l : List Diag) : List Diag :=
  l.filter isDebugDiag

/-- `GetOutputDriverForRaster` (lines 146-178), returning the selected
format string (empty on the error path) together with the diagnostics it
emits, in emission order. -/
def GetOutputDriverForRaster (reg : List Driver) (dest : String) : String × List Diag :=
  let aoDrivers := GetOutputDriversFor reg dest rasterFlags
  let osExt := CPLGetExtension dest
  match aoDrivers with
  | [] =>
    if osExt == "" then
      ("GTiff", [Diag.debugDiag "GDAL" ("Using " ++ "GTiff" ++ " driver")])
    else
      ("", [Diag.errorDiag ("Cannot guess driver for " ++ dest)])
  | a :: rest =>
    if !rest.isEmpty && !(a == "GTiff" && rest.headD "" == "COG") then
      (a, [Diag.warningDiag ("Several drivers matching " ++ osExt ++ " extension. Using " ++ a),
           Diag.debugDiag "GDAL" ("Using " ++ a ++ " driver")])
    else
      (a, [Diag.debugDiag "GDAL" ("Using " ++ a ++ " driver")])

/-!  Helper lemmas shared by the claim theorems. -/

/-- Appending a prefix does not change the segment after the last dot,
provided the suffix already contains a dot. -/
theorem lastDotSegment_append (pre l e : List Char) (h : lastDotSegment l = some e) :
    lastDotSegment (pre ++ l) = some e := by
  induction pre with
  | nil => simpa using h
  | cons c cs ih => simp [lastDotSegment, ih]

/-- The raw extension of a filename is determined by any dotted suffix of
it. -/
theorem CPLGetExtension_of_endsWith (dest t : String) (e : List Char)
    (hend : strEndsWith dest t = true) (hseg : lastDotSegment t.data = some e) :
    CPLGetExtension dest = String.mk (e.map Char.toLower) := by
  have hsuf : t.data <:+ dest.data := List.isSuffixOf_iff_suffix.mp hend
  obtain ⟨pre, hpre⟩ := hsuf
  unfold CPLGetExtension
  rw [← hpre, lastDotSegment_append pre _ e hseg]

/-- A string ending in `u` cannot also end in a shorter `v` unless `v` is
a suffix of `u`. -/
theorem strEndsWith_excl (s u v : String)
    (hu : strEndsWith s u = true) (hlen : v.data.length ≤ u.data.length)
    (hns : ¬ v.data <:+ u.data) : strEndsWith s v = false := by
  cases hb : strEndsWith s v with
  | false => rfl
  | true =>
    exfalso
    have hvs : v.data <:+ s.data := List.isSuffixOf_iff_suffix.mp hb
    have hus : u.data <:+ s.data := List.isSuffixOf_iff_suffix.mp hu
    rcases List.suffix_or_suffix_of_suffix hvs hus with h | h
    · exact hns h
    · have heq : u.data = v.data := h.eq_of_length_le hlen
      exact hns (by rw [heq])

/-- Splitting a true boolean disjunction into its cases. -/
theorem bool_or_split {a b : Bool} (h : (a || b) = true) : a = true ∨ b = true := by
  cases a <;> cases b <;> simp_all

/-- The nc override leaves every list that is not two elements long
unchanged. -/
theorem applyNcOverride_length_ne_two (tok : String) (l : List String)
    (h : l.length ≠ 2) : applyNcOverride tok l = l := by
  rcases l with _ | ⟨a, _ | ⟨b, rest⟩⟩
  · rfl
  · rfl
  · rcases rest with _ | ⟨c, rest⟩
    · exact absurd rfl h
    · rfl

/-- The nc override either keeps the list or replaces it with the
hard-coded `["NETCDF", "GMT"]`. -/
theorem applyNcOverride_cases (tok : String) (l : List String) :
    applyNcOverride tok l = l ∨ applyNcOverride tok l = ["NETCDF", "GMT"] := by
  unfold applyNcOverride
  rcases l with _ | ⟨a, _ | ⟨b, _ | ⟨c, rest⟩⟩⟩
  · exact Or.inl rfl
  · exact Or.inl rfl
  · by_cases hc : (EQUAL tok "nc" && EQUAL a "GMT" && EQUAL b "NETCDF") = true
    · exact Or.inr (if_pos hc)
    · exact Or.inl (if_neg hc)
  · exact Or.inl rfl

/-- The per-driver inclusion condition as the spec words it (§4.2):
clause (a) is the capability disjunction, clause (b) the
extension-or-connection-prefix disjunction.  Stated for comparison with
the source's filter condition. -/
def matcherSpecPred (f : OpenFlags) (dest tok : String) (d : Driver) : Prop :=
  (((d.canCreate = true ∨ d.canCreateCopy = true) ∧
      ((f.raster = true ∧ d.isRaster = true) ∨ (f.vector = true ∧ d.isVector = true)))
    ∨ (f.vector = true ∧ d.supportsVectorTranslateFrom = true))
  ∧ ((tok ≠ "" ∧ ∃ e ∈ d.extensions, EQUAL tok e = true)
    ∨ (∃ p, d.connectionPrefixStr = some p ∧ STARTS_WITH_CI dest p = true))

/-- The source's per-driver filter condition is equivalent to the spec's
clause (a) AND clause (b). -/
theorem matcher_cond_iff_spec (f : OpenFlags) (dest tok : String) (d : Driver) :
    (driverCapabilityOk f d && driverMatches dest tok d) = true ↔
      matcherSpecPred f dest tok d := by
  by_cases hc : (!(tok == "") && DoesDriverHandleExtension d tok) = true
  · rcases hpfx : d.connectionPrefixStr with _ | p <;>
      simp_all [driverCapabilityOk, driverMatches, matcherSpecPred,
        DoesDriverHandleExtension, List.any_eq_true, Bool.and_eq_true, Bool.or_eq_true,
        Bool.not_eq_true', beq_iff_eq] <;> tauto
  · rcases hpfx : d.connectionPrefixStr with _ | p <;>
      simp_all [driverCapabilityOk, driverMatches, matcherSpecPred,
        DoesDriverHandleExtension, List.any_eq_true, Bool.and_eq_true, Bool.or_eq_true,
        Bool.not_eq_true', beq_iff_eq]
    tauto

/-- Selection behaviour of `GetOutputDriverForRaster` on a match result
with at least two entries: the byte-exact `["GTiff", "COG"]` head
suppresses the warning, anything else warns about the first entry. -/
theorem raster_selection_eq (reg : List Driver) (dest : String) (a b : String)
    (rest : List String) (h : GetOutputDriversFor reg dest rasterFlags = a :: b :: rest) :
    GetOutputDriverForRaster reg dest =
      if a = "GTiff" ∧ b = "COG" then
        (a, [Diag.debugDiag "GDAL" ("Using " ++ a ++ " driver")])
      else
        (a, [Diag.warningDiag ("Several drivers matching " ++ CPLGetExtension dest
              ++ " extension. Using " ++ a),
             Diag.debugDiag "GDAL" ("Using " ++ a ++ " driver")]) := by
  by_cases hab : a = "GTiff" ∧ b = "COG"
  · obtain ⟨h1, h2⟩ := hab
    subst h1
    subst h2
    simp [GetOutputDriverForRaster, h]
  · have hfalse : (a == "GTiff" && b == "COG") = false := by
      cases h1 : a == "GTiff" <;> cases h2 : b == "COG" <;> simp_all [beq_iff_eq]
    simp [GetOutputDriverForRaster, h, hfalse, hab]

/-- Diagnostic structure of `GetOutputDriverForRaster`: either the error
path (empty match result, non-empty extension) or a successful path whose
stream ends with the debug message naming the chosen driver and carries
no error. -/
theorem raster_diag_structure (reg : List Driver) (dest : String) :
    (GetOutputDriversFor reg dest rasterFlags = [] ∧ CPLGetExtension dest ≠ ""
      ∧ GetOutputDriverForRaster reg dest
          = ("", [Diag.errorDiag ("Cannot guess driver for " ++ dest)]))
    ∨ (Diag.debugDiag "GDAL" ("Using " ++ (GetOutputDriverForRaster reg dest).fst ++ " driver")
          ∈ (GetOutputDriverForRaster reg dest).snd
        ∧ hasErrorDiag (GetOutputDriverForRaster reg dest).snd = false
        ∧ debugsOf (GetOutputDriverForRaster reg dest).snd ≠ []) := by
  rcases hl : GetOutputDriversFor reg dest rasterFlags with _ | ⟨a, rest⟩
  · by_cases hext : CPLGetExtension dest = ""
    · right
      simp [GetOutputDriverForRaster, hl, hext, hasErrorDiag, isErrorDiag,
        debugsOf, isDebugDiag]
    · left
      refine ⟨rfl, hext, ?_⟩
      simp [GetOutputDriverForRaster, hl, beq_iff_eq, hext]
  · right
    simp only [GetOutputDriverForRaster, hl]
    split <;>
      simp [hasErrorDiag, isErrorDiag, debugsOf, isDebugDiag]

/-!  Concrete drivers used by witnesses and counterexamples. -/

/-- A raster driver with proper-cased short name `GMT` declaring the
`nc` extension. -/
def gmtProper : Driver := ⟨"GMT", true, false, true, false, false, ["nc"], none⟩

/-- A raster driver with proper-cased short name `NETCDF` declaring the
`nc` extension. -/
def netcdfProper : Driver := ⟨"NETCDF", true, false, true, false, false, ["nc"], none⟩

/-- A raster driver whose short name is the lower-case `gmt`, declaring
the `nc` extension. -/
def gmtLowercase : Driver := ⟨"gmt", true, false, true, false, false, ["nc"], none⟩

/-- A raster driver whose short name is the lower-case `netcdf`,
declaring the `nc` extension. -/
def netcdfLowercase : Driver := ⟨"netcdf", true, false, true, false, false, ["nc"], none⟩

/-!  Claim theorems. -/

/-- Claim C1: with an empty candidate list, `GetOutputDriverForRaster`
falls back to `GTiff` when the destination has no extractable extension
and fails with the driver-resolution error when it has one; the error is
raised in exactly that case and no other. -/
theorem c1_empty_match_policy (reg : List Driver) (dest : String) :
    (GetOutputDriversFor reg dest rasterFlags = [] →
      ((CPLGetExtension dest = "" → (GetOutputDriverForRaster reg dest).fst = "GTiff")
        ∧ (CPLGetExtension dest ≠ "" →
            hasErrorDiag (GetOutputDriverForRaster reg dest).snd = true)))
    ∧ (hasErrorDiag (GetOutputDriverForRaster reg dest).snd = true ↔
        (GetOutputDriversFor reg dest rasterFlags = [] ∧ CPLGetExtension dest ≠ "")) := by
  rcases hl : GetOutputDriversFor reg dest rasterFlags with _ | ⟨a, rest⟩
  · by_cases hext : CPLGetExtension dest = ""
    · constructor
      · exact fun _ => ⟨fun _ => by simp [GetOutputDriverForRaster, hl, hext],
          fun hne => absurd hext hne⟩
      · constructor
        · intro herr
          simp [GetOutputDriverForRaster, hl, hext, hasErrorDiag, isErrorDiag] at herr
        · rintro ⟨_, hne⟩
          exact absurd hext hne
    · constructor
      · exact fun _ => ⟨fun he => absurd he hext,
          fun _ => by simp [GetOutputDriverForRaster, hl, beq_iff_eq, hext,
            hasErrorDiag, isErrorDiag]⟩
      · exact ⟨fun _ => ⟨rfl, hext⟩, fun _ => by
          simp [GetOutputDriverForRaster, hl, beq_iff_eq, hext, hasErrorDiag, isErrorDiag]⟩
  · have hne : hasErrorDiag (GetOutputDriverForRaster reg dest).snd = false := by
      simp only [GetOutputDriverForRaster, hl]
      split <;> simp [hasErrorDiag, isErrorDiag]
    constructor
    · intro hcontra
      exact absurd hcontra (by simp)
    · constructor
      · intro herr
        rw [hne] at herr
        exact absurd herr (by simp)
      · rintro ⟨hcontra, _⟩
        exact absurd hcontra (by simp)

/-- Witness for C1 at concrete inputs: an empty registry raises the
error on `out.xyz` and falls back to `GTiff` on `noext`. -/
theorem c1_empty_match_policy_witness :
    hasErrorDiag (GetOutputDriverForRaster [] "out.xyz").snd = true
    ∧ (GetOutputDriverForRaster [] "noext").fst = "GTiff" :=
  ⟨((c1_empty_match_policy [] "out.xyz").1 (by decide)).2 (by decide),
    ((c1_empty_match_policy [] "noext").1 (by decide)).1 (by decide)⟩

/-- Counterexample to claim C2 as stated: the mixed-case filename
`a.SHP.Zip` ends in `.shp.zip` up to case, yet its token is `zip`, not
`shp.zip`, because the source checks only the two exact spellings
`.shp.zip` and `.SHP.ZIP`. -/
theorem c2_counterexample :
    extensionToken "a.SHP.Zip" = "zip" ∧ ¬ extensionToken "a.SHP.Zip" = "shp.zip" := by
  decide

/-- Claim C2 (amended): the compound-extension aliasing fires exactly for
the two case-sensitive spellings the source checks — a filename ending in
`.shp.zip` or `.SHP.ZIP` gets token `shp.zip` (never `zip`), and one
ending in `.gpkg.zip` or `.GPKG.ZIP` gets token `gpkg.zip`; other case
variants keep the plain `zip` token. -/
theorem c2_zip_alias_amended (dest : String) :
    ((strEndsWith dest ".shp.zip" || strEndsWith dest ".SHP.ZIP") = true →
      extensionToken dest = "shp.zip" ∧ extensionToken dest ≠ "zip")
    ∧ ((strEndsWith dest ".gpkg.zip" || strEndsWith dest ".GPKG.ZIP") = true →
      extensionToken dest = "gpkg.zip" ∧ extensionToken dest ≠ "zip") := by
  constructor
  · intro h
    have hext : CPLGetExtension dest = "zip" := by
      rcases bool_or_split h with h1 | h1
      · exact (CPLGetExtension_of_endsWith dest ".shp.zip" "zip".data h1 (by decide)).trans
          (by decide)
      · exact (CPLGetExtension_of_endsWith dest ".SHP.ZIP" "ZIP".data h1 (by decide)).trans
          (by decide)
    have hcond : (EQUAL (CPLGetExtension dest) "zip"
        && (strEndsWith dest ".shp.zip" || strEndsWith dest ".SHP.ZIP")) = true := by
      rw [hext, h]
      decide
    have heq : extensionToken dest = "shp.zip" := by
      simp only [extensionToken]
      rw [if_pos hcond]
    exact ⟨heq, by rw [heq]; decide⟩
  · intro h
    have hext : CPLGetExtension dest = "zip" := by
      rcases bool_or_split h with h1 | h1
      · exact (CPLGetExtension_of_endsWith dest ".gpkg.zip" "zip".data h1 (by decide)).trans
          (by decide)
      · exact (CPLGetExtension_of_endsWith dest ".GPKG.ZIP" "ZIP".data h1 (by decide)).trans
          (by decide)
    have hshp : strEndsWith dest ".shp.zip" = false := by
      rcases bool_or_split h with h1 | h1
      · exact strEndsWith_excl dest ".gpkg.zip" ".shp.zip" h1 (by decide) (by decide)
      · exact strEndsWith_excl dest ".GPKG.ZIP" ".shp.zip" h1 (by decide) (by decide)
    have hSHP : strEndsWith dest ".SHP.ZIP" = false := by
      rcases bool_or_split h with h1 | h1
      · exact strEndsWith_excl dest ".gpkg.zip" ".SHP.ZIP" h1 (by decide) (by decide)
      · exact strEndsWith_excl dest ".GPKG.ZIP" ".SHP.ZIP" h1 (by decide) (by decide)
    have hcond1 : (EQUAL (CPLGetExtension dest) "zip"
        && (strEndsWith dest ".shp.zip" || strEndsWith dest ".SHP.ZIP")) = false := by
      rw [hshp, hSHP]
      simp
    have hcond2 : (EQUAL (CPLGetExtension dest) "zip"
        && (strEndsWith dest ".gpkg.zip" || strEndsWith dest ".GPKG.ZIP")) = true := by
      rw [hext, h]
      decide
    have heq : extensionToken dest = "gpkg.zip" := by
      simp only [extensionToken]
      rw [if_neg (by rw [hcond1]; exact Bool.false_ne_true), if_pos hcond2]
    exact ⟨heq, by rw [heq]; decide⟩

/-- Witness for C2 (amended) at concrete filenames. -/
theorem c2_zip_alias_witness :
    (extensionToken "a.shp.zip" = "shp.zip" ∧ extensionToken "a.shp.zip" ≠ "zip")
    ∧ (extensionToken "b.GPKG.ZIP" = "gpkg.zip" ∧ extensionToken "b.GPKG.ZIP" ≠ "zip") :=
  ⟨(c2_zip_alias_amended "a.shp.zip").1 (by decide),
    (c2_zip_alias_amended "b.GPKG.ZIP").2 (by decide)⟩

/-- Counterexample to claim C3 as stated: the raw match result
`["gmt", "netcdf"]` is not exactly `["GMT", "NETCDF"]`, yet the override
still fires (the source compares with the case-insensitive `EQUAL`), so
the result is not left untouched. -/
theorem c3_counterexample :
    rawDriverList [gmtLowercase, netcdfLowercase] "x.nc" rasterFlags = ["gmt", "netcdf"]
    ∧ ["gmt", "netcdf"] ≠ ["GMT", "NETCDF"]
    ∧ GetOutputDriversFor [gmtLowercase, netcdfLowercase] "x.nc" rasterFlags
        = ["NETCDF", "GMT"] := by
  decide

/-- Claim C3 (amended): the override fires if and only if the token is
case-insensitively `nc` and the raw match result has exactly two entries,
the first case-insensitively `GMT` and the second case-insensitively
`NETCDF`; the final result is then the hard-coded `["NETCDF", "GMT"]`,
and in every other case the raw result is returned untouched. -/
theorem c3_nc_override_amended (reg : List Driver) (dest : String) (f : OpenFlags) :
    (∀ a b, rawDriverList reg dest f = [a, b] →
      (EQUAL (extensionToken dest) "nc" && EQUAL a "GMT" && EQUAL b "NETCDF") = true →
      GetOutputDriversFor reg dest f = ["NETCDF", "GMT"])
    ∧ (∀ a b, rawDriverList reg dest f = [a, b] →
      (EQUAL (extensionToken dest) "nc" && EQUAL a "GMT" && EQUAL b "NETCDF") = false →
      GetOutputDriversFor reg dest f = rawDriverList reg dest f)
    ∧ ((rawDriverList reg dest f).length ≠ 2 →
      GetOutputDriversFor reg dest f = rawDriverList reg dest f) := by
  refine ⟨?_, ?_, ?_⟩
  · intro a b hraw hcond
    show applyNcOverride (extensionToken dest) (rawDriverList reg dest f) = _
    rw [hraw]
    simp only [applyNcOverride]
    rw [if_pos hcond]
  · intro a b hraw hcond
    show applyNcOverride (extensionToken dest) (rawDriverList reg dest f) = _
    rw [hraw]
    simp only [applyNcOverride]
    rw [if_neg (by rw [hcond]; exact Bool.false_ne_true)]
  · intro hlen
    exact applyNcOverride_length_ne_two (extensionToken dest) (rawDriverList reg dest f) hlen

/-- Witness for C3 (amended): the canonical `["GMT", "NETCDF"]` pair
under token `nc` is replaced by `["NETCDF", "GMT"]`. -/
theorem c3_nc_override_witness :
    GetOutputDriversFor [gmtProper, netcdfProper] "x.nc" rasterFlags = ["NETCDF", "GMT"] :=
  (c3_nc_override_amended [gmtProper, netcdfProper] "x.nc" rasterFlags).1 "GMT" "NETCDF"
    (by decide) (by decide)

/-- Counterexample to claim C4 as stated: the registry driver `gmt`
satisfies the spec's capability clause (a) and extension clause (b) for
destination `z.nc`, yet its short name is absent from the final
`GetOutputDriversFor` result, because the nc override replaces the list
with the hard-coded `["NETCDF", "GMT"]` — so inclusion in the returned
result is not equivalent to (a) AND (b). -/
theorem c4_counterexample :
    gmtLowercase ∈ [gmtLowercase, netcdfLowercase]
    ∧ matcherSpecPred rasterFlags "z.nc" (extensionToken "z.nc") gmtLowercase
    ∧ gmtLowercase.shortName ∉
        GetOutputDriversFor [gmtLowercase, netcdfLowercase] "z.nc" rasterFlags := by
  refine ⟨by decide, ⟨?_, ?_⟩, by decide⟩
  · exact Or.inl ⟨Or.inl rfl, Or.inl ⟨rfl, rfl⟩⟩
  · exact Or.inl ⟨by decide, ⟨"nc", by decide, by decide⟩⟩

/-- A raster driver declaring the `tif` extension. -/
def tifDrv : Driver := ⟨"TifDrv", true, false, true, false, false, ["tif"], none⟩

/-- Claim C4 (amended): a short name is in the raw (pre-override) match
result exactly when some registry driver carries it and satisfies the
spec's capability clause (a) and extension/prefix clause (b); the final
`GetOutputDriversFor` result is either that raw result — and is then
characterized by the same equivalence — or, when the nc override fires,
exactly the hard-coded `["NETCDF", "GMT"]`; in particular a driver
declaring extension `tif` matches destination `OUT.TIF`. -/
theorem c4_matcher_amended (reg : List Driver) (f : OpenFlags) (dest s : String) :
    (s ∈ rawDriverList reg dest f ↔
      ∃ d ∈ reg, d.shortName = s ∧ matcherSpecPred f dest (extensionToken dest) d)
    ∧ (GetOutputDriversFor reg dest f = rawDriverList reg dest f
        ∨ GetOutputDriversFor reg dest f = ["NETCDF", "GMT"])
    ∧ (GetOutputDriversFor reg dest f = rawDriverList reg dest f →
        (s ∈ GetOutputDriversFor reg dest f ↔
          ∃ d ∈ reg, d.shortName = s ∧ matcherSpecPred f dest (extensionToken dest) d))
    ∧ "TifDrv" ∈ GetOutputDriversFor [tifDrv] "OUT.TIF" rasterFlags := by
  have hiff : s ∈ rawDriverList reg dest f ↔
      ∃ d ∈ reg, d.shortName = s ∧ matcherSpecPred f dest (extensionToken dest) d := by
    unfold rawDriverList
    simp only [List.mem_map, List.mem_filter]
    constructor
    · rintro ⟨d, ⟨hmem, hpred⟩, rfl⟩
      exact ⟨d, hmem, rfl, (matcher_cond_iff_spec f dest (extensionToken dest) d).mp hpred⟩
    · rintro ⟨d, hmem, rfl, hspec⟩
      exact ⟨d, ⟨hmem, (matcher_cond_iff_spec f dest (extensionToken dest) d).mpr hspec⟩, rfl⟩
  refine ⟨hiff, applyNcOverride_cases (extensionToken dest) (rawDriverList reg dest f),
    ?_, by decide⟩
  intro he
  rw [he]
  exact hiff

/-- Witness for C4 (amended): on a singleton tif registry the override
does not fire and the final-result equivalence is obtained at a concrete
input. -/
theorem c4_matcher_amended_witness :
    "TifDrv" ∈ GetOutputDriversFor [tifDrv] "OUT.TIF" rasterFlags ↔
      ∃ d ∈ [tifDrv], d.shortName = "TifDrv"
        ∧ matcherSpecPred rasterFlags "OUT.TIF" (extensionToken "OUT.TIF") d :=
  (c4_matcher_amended [tifDrv] rasterFlags "OUT.TIF" "TifDrv").2.2.1 (by decide)

/-- Claim C5: on a multi-element match result, a byte-exact
`["GTiff", "COG"]` head selects `GTiff` with no warning, any other head
selects the first entry with exactly one warning naming it; every
non-error path emits the debug diagnostic naming the chosen driver. -/
theorem c5_raster_selection (reg : List Driver) (dest : String) :
    (∀ a b rest, GetOutputDriversFor reg dest rasterFlags = a :: b :: rest →
      (((a = "GTiff" ∧ b = "COG") →
        (GetOutputDriverForRaster reg dest).fst = "GTiff"
        ∧ warningsOf (GetOutputDriverForRaster reg dest).snd = [])
      ∧ (¬ (a = "GTiff" ∧ b = "COG") →
        (GetOutputDriverForRaster reg dest).fst = a
        ∧ warningsOf (GetOutputDriverForRaster reg dest).snd
            = [Diag.warningDiag ("Several drivers matching " ++ CPLGetExtension dest
                ++ " extension. Using " ++ a)])))
    ∧ (hasErrorDiag (GetOutputDriverForRaster reg dest).snd = false →
      Diag.debugDiag "GDAL" ("Using " ++ (GetOutputDriverForRaster reg dest).fst ++ " driver")
        ∈ (GetOutputDriverForRaster reg dest).snd) := by
  constructor
  · intro a b rest h
    have heq := raster_selection_eq reg dest a b rest h
    constructor
    · intro hab
      rw [heq, if_pos hab]
      exact ⟨hab.1, by simp [warningsOf, isWarningDiag]⟩
    · intro hab
      rw [heq, if_neg hab]
      exact ⟨rfl, by simp [warningsOf, isWarningDiag]⟩
  · intro herr
    rcases raster_diag_structure reg dest with ⟨_, _, hres⟩ | ⟨hmem, _, _⟩
    · rw [hres] at herr
      simp [hasErrorDiag, isErrorDiag] at herr
    · exact hmem

/-- A two-driver raster registry for the foo extension, used as the C5
witness registry. -/
def fooReg : List Driver :=
  [⟨"ADrv", true, false, true, false, false, ["foo"], none⟩,
   ⟨"BDrv", true, false, true, false, false, ["foo"], none⟩]

/-- Witness for C5: a two-element result with a non-GTiff head selects
the first entry and warns about it. -/
theorem c5_raster_selection_witness :
    (GetOutputDriverForRaster fooReg "w.foo").fst = "ADrv"
    ∧ warningsOf (GetOutputDriverForRaster fooReg "w.foo").snd
        = [Diag.warningDiag ("Several drivers matching " ++ CPLGetExtension "w.foo"
            ++ " extension. Using " ++ "ADrv")] :=
  (((c5_raster_selection fooReg "w.foo").1 "ADrv" "BDrv" [] (by decide)).2 (by decide))

/-- A capability-passing raster driver with no extensions and connection
prefix `x`, whose lower-case name collides case-insensitively with GMT. -/
def gmtPfxDrv : Driver := ⟨"gmt", true, false, true, false, false, [], some "x"⟩

/-- Counterexample to claim C6 as stated: this prefix-matched driver is
in the raw match result, but the nc override rewrites the final
`GetOutputDriversFor` result to the hard-coded `["NETCDF", "GMT"]`, which
does not contain its short name `gmt` byte-for-byte. -/
theorem c6_counterexample :
    driverCapabilityOk rasterFlags gmtPfxDrv = true
    ∧ DoesDriverHandleExtension gmtPfxDrv (extensionToken "x.nc") = false
    ∧ gmtPfxDrv.connectionPrefixStr = some "x"
    ∧ STARTS_WITH_CI "x.nc" "x" = true
    ∧ gmtPfxDrv.shortName ∈ rawDriverList [gmtPfxDrv, netcdfLowercase] "x.nc" rasterFlags
    ∧ gmtPfxDrv.shortName ∉ GetOutputDriversFor [gmtPfxDrv, netcdfLowercase] "x.nc" rasterFlags := by
  decide

/-- Claim C6 (amended): a capability-passing driver whose extensions do
not match (or whose token is empty) but whose connection prefix is a
case-insensitive prefix of the destination is always in the raw match
result, and in the final result whenever the nc override leaves the list
untouched. -/
theorem c6_prefix_fallback_amended (reg : List Driver) (dest : String) (f : OpenFlags)
    (d : Driver) (p : String) (hmem : d ∈ reg)
    (hcap : driverCapabilityOk f d = true)
    (hext : extensionToken dest = "" ∨ DoesDriverHandleExtension d (extensionToken dest) = false)
    (hpfx : d.connectionPrefixStr = some p) (hci : STARTS_WITH_CI dest p = true) :
    d.shortName ∈ rawDriverList reg dest f
    ∧ (GetOutputDriversFor reg dest f = rawDriverList reg dest f →
        d.shortName ∈ GetOutputDriversFor reg dest f) := by
  have hmatch : driverMatches dest (extensionToken dest) d = true := by
    unfold driverMatches
    have hc : (!(extensionToken dest == "")
        && DoesDriverHandleExtension d (extensionToken dest)) = false := by
      rcases hext with h | h <;> simp [h]
    rw [if_neg (by rw [hc]; exact Bool.false_ne_true), hpfx]
    exact hci
  have hraw : d.shortName ∈ rawDriverList reg dest f :=
    List.mem_map_of_mem Driver.shortName
      (List.mem_filter.mpr ⟨hmem, by rw [hcap, hmatch]; rfl⟩)
  exact ⟨hraw, fun he => by rw [he]; exact hraw⟩

/-- A raster driver reachable only through its connection prefix. -/
def pgDrv : Driver := ⟨"PGDRV", true, false, true, false, false, [], some "PG:"⟩

/-- Witness for C6 (amended): the prefix-matched driver appears in the
final result of a resolution where the override does not fire. -/
theorem c6_prefix_fallback_witness :
    "PGDRV" ∈ GetOutputDriversFor [pgDrv] "PG:dbname=foo" rasterFlags :=
  (c6_prefix_fallback_amended [pgDrv] "PG:dbname=foo" rasterFlags pgDrv "PG:"
      (by decide) (by decide) (Or.inl (by decide)) rfl (by decide)).2 (by decide)

/-- Counterexample to claim C7 as stated: when the nc override fires, the
final result `["NETCDF", "GMT"]` is not a registry-order sublist of the
registry's short names `["GMT", "NETCDF"]`. -/
theorem c7_counterexample :
    GetOutputDriversFor [gmtProper, netcdfProper] "y.nc" rasterFlags = ["NETCDF", "GMT"]
    ∧ [gmtProper, netcdfProper].map Driver.shortName = ["GMT", "NETCDF"]
    ∧ ¬ List.Sublist (GetOutputDriversFor [gmtProper, netcdfProper] "y.nc" rasterFlags)
        ([gmtProper, netcdfProper].map Driver.shortName) := by
  decide

/-- Claim C7 (amended): the raw match result is always a registry-order
sublist of the registry's short names; the final result is either that
raw result or the hard-coded `["NETCDF", "GMT"]` of the nc override; with
pairwise-distinct short names the final result has no duplicates; the
operation is total, an empty result being a valid output. -/
theorem c7_shape_amended (reg : List Driver) (dest : String) (f : OpenFlags) :
    List.Sublist (rawDriverList reg dest f) (reg.map Driver.shortName)
    ∧ ((reg.map Driver.shortName).Nodup → (GetOutputDriversFor reg dest f).Nodup)
    ∧ (GetOutputDriversFor reg dest f = rawDriverList reg dest f
        ∨ GetOutputDriversFor reg dest f = ["NETCDF", "GMT"]) := by
  have hsub : List.Sublist (rawDriverList reg dest f) (reg.map Driver.shortName) :=
    List.Sublist.map Driver.shortName (List.filter_sublist reg)
  have hshape : GetOutputDriversFor reg dest f = rawDriverList reg dest f
      ∨ GetOutputDriversFor reg dest f = ["NETCDF", "GMT"] :=
    applyNcOverride_cases (extensionToken dest) (rawDriverList reg dest f)
  refine ⟨hsub, ?_, hshape⟩
  intro hnd
  rcases hshape with h | h
  · rw [h]
    exact List.Nodup.sublist hsub hnd
  · rw [h]
    decide

/-- Witness for C7 (amended): a concrete nodup registry yields a nodup
result. -/
theorem c7_shape_witness :
    (GetOutputDriversFor fooReg "q.foo" rasterFlags).Nodup :=
  (c7_shape_amended fooReg "q.foo" rasterFlags).2.1 (by decide)

/-- The shared state visible to a resolution call: the registry snapshot
and the diagnostics accumulated so far by the process. -/
structure World where
  registry : List Driver
  log : List Diag
  deriving Repr, DecidableEq

/-- `GetOutputDriversFor` run against a world: it reads the registry and
emits nothing. -/
def resolveDriversInWorld (w : World) (dest : String) (f : OpenFlags) :
    World × List String :=
  (⟨w.registry, w.log⟩, GetOutputDriversFor w.registry dest f)

/-- `GetOutputDriverForRaster` run against a world: it reads the registry
and appends its diagnostics to the log. -/
def resolveRasterInWorld (w : World) (dest : String) : World × String :=
  (⟨w.registry, w.log ++ (GetOutputDriverForRaster w.registry dest).snd⟩,
    (GetOutputDriverForRaster w.registry dest).fst)

/-- Claim C8: both resolution functions leave the registry unchanged, and
a repeated call — in particular one made after a prior call that may have
failed — returns the same result and emits the same diagnostics, for
every world, destination and capability request. -/
theorem c8_purity (w : World) (dest : String) (f : OpenFlags) :
    (resolveRasterInWorld w dest).fst.registry = w.registry
    ∧ (resolveDriversInWorld w dest f).fst.registry = w.registry
    ∧ (resolveDriversInWorld w dest f).fst.log = w.log
    ∧ (resolveRasterInWorld ((resolveRasterInWorld w dest).fst) dest).snd
        = (resolveRasterInWorld w dest).snd
    ∧ (resolveDriversInWorld ((resolveRasterInWorld w dest).fst) dest f).snd
        = (resolveDriversInWorld w dest f).snd
    ∧ ((resolveRasterInWorld ((resolveRasterInWorld w dest).fst) dest).fst.log
        = ((resolveRasterInWorld w dest).fst.log
            ++ (GetOutputDriverForRaster w.registry dest).snd)) :=
  ⟨rfl, rfl, rfl, rfl, rfl, rfl⟩

/-- Claim C9: the GTiff/COG warning suppression compares byte-for-byte—
a head pair equal to `["GTiff", "COG"]` only up to case still draws the
multiple-drivers warning—while the nc override in the same module keeps
its case-insensitive comparison. -/
theorem c9_gtiff_cog_case_sensitive (reg : List Driver) (dest : String) (a b : String)
    (rest : List String)
    (h : GetOutputDriversFor reg dest rasterFlags = a :: b :: rest)
    (_ha : EQUAL a "GTiff" = true) (_hb : EQUAL b "COG" = true)
    (hne : ¬ (a = "GTiff" ∧ b = "COG")) :
    warningsOf (GetOutputDriverForRaster reg dest).snd
      = [Diag.warningDiag ("Several drivers matching " ++ CPLGetExtension dest
          ++ " extension. Using " ++ a)]
    ∧ applyNcOverride "NC" ["gmt", "netcdf"] = ["NETCDF", "GMT"] := by
  refine ⟨?_, by decide⟩
  rw [raster_selection_eq reg dest a b rest h, if_neg hne]
  simp [warningsOf, isWarningDiag]

/-- A registry whose two raster drivers carry the lower-cased names
`gtiff` and `cog` for the tif extension. -/
def tifLowerReg : List Driver :=
  [⟨"gtiff", true, false, true, false, false, ["tif"], none⟩,
   ⟨"cog", true, false, true, false, false, ["tif"], none⟩]

/-- Witness for C9: the lower-cased pair `["gtiff", "cog"]` draws the
multiple-drivers warning. -/
theorem c9_gtiff_cog_witness :
    warningsOf (GetOutputDriverForRaster tifLowerReg "y.tif").snd
      = [Diag.warningDiag ("Several drivers matching " ++ CPLGetExtension "y.tif"
          ++ " extension. Using " ++ "gtiff")]
    ∧ applyNcOverride "NC" ["gmt", "netcdf"] = ["NETCDF", "GMT"] :=
  c9_gtiff_cog_case_sensitive tifLowerReg "y.tif" "gtiff" "cog" []
    (by decide) (by decide) (by decide) (by decide)

/-- Claim C10: on the failure path (empty candidate list, non-empty
extension) the result value is the empty string and no debug diagnostic
is emitted; the debug diagnostic appears exactly on the non-error
paths. -/
theorem c10_error_path_silent (reg : List Driver) (dest : String) :
    (GetOutputDriversFor reg dest rasterFlags = [] → CPLGetExtension dest ≠ "" →
      (GetOutputDriverForRaster reg dest).fst = ""
      ∧ debugsOf (GetOutputDriverForRaster reg dest).snd = [])
    ∧ (debugsOf (GetOutputDriverForRaster reg dest).snd = []
        ↔ hasErrorDiag (GetOutputDriverForRaster reg dest).snd = true) := by
  constructor
  · intro hl hne
    constructor
    · simp [GetOutputDriverForRaster, hl, beq_iff_eq, hne]
    · simp [GetOutputDriverForRaster, hl, beq_iff_eq, hne, debugsOf, isDebugDiag]
  · rcases raster_diag_structure reg dest with ⟨_, _, hres⟩ | ⟨_, herr, hdbg⟩
    · rw [hres]
      simp [debugsOf, isDebugDiag, hasErrorDiag, isErrorDiag]
    · rw [herr]
      simp [hdbg]

/-- Witness for C10: the empty registry fails on `out.abc`, returning the
empty string and no debug diagnostic. -/
theorem c10_error_path_silent_witness :
    (GetOutputDriverForRaster [] "out.abc").fst = ""
    ∧ debugsOf (GetOutputDriverForRaster [] "out.abc").snd = [] :=
  (c10_error_path_silent [] "out.abc").1 (by decide) (by decide)

end GDALCommonUtils
